import Mathlib

/-!
Verification of the wastebin paste service core: the paste storage and
lifecycle layer together with the HTTP handler logic of `src/rest.rs` and
`src/web.rs`.

The repository source under `src/` contains the two handler files; the
storage layer (`cache.rs` / `db.rs`), the identifier codec (`id.rs`) and
the highlighting collaborator are referenced by them but not present, so
those components are modelled from the specification (each such definition
is marked `Modelled from the spec:` in its doc comment).  Machine integers
(`u32`) are modelled as `Nat` with explicit range checks where overflow
matters.  Time is an abstract `Nat` clock passed explicitly, and the
concurrent storage layer is modelled as a linearized state-passing
function, which the spec's linearizability requirement (§5) justifies.
-/

namespace Wastebin

/-- Error kinds surfaced by the core (spec §7; the variants used by the
handlers in `src/rest.rs` / `src/web.rs`). -/
inductive Error where
  | NotFound
  | DeletionTimeExpired
  | IllegalCharacters
  | InvalidIdentifier
  | IdentifierCollision
  deriving DecidableEq, Repr

/-- The `Entry` value object (spec §3; the fields used by
`src/rest.rs` and `src/web.rs`): raw text, optional extension hint,
optional expiry in seconds, optional burn-after-reading flag, and the
derived `seconds_since_creation` computed at read time. -/
structure Entry where
  text : String
  extension : Option String
  expires : Option Nat
  burn_after_reading : Option Bool
  seconds_since_creation : Nat
  deriving DecidableEq, Repr

/-- A stored record: the entry as inserted plus its creation timestamp.
Modelled from the spec: the persisted record layout (§6) maps an
identifier to (text, optional extension, optional expiry-seconds, burn
flag, creation timestamp); the absolute expiry time is derived as
`created + expires` at read time, which is equivalent to storing it. -/
structure Record where
  entry : Entry
  created : Nat
  deriving DecidableEq, Repr

/-- The storage layer's record set: a map from numeric identifiers to
records.  Identifiers are `u32` values; we use `Nat` keys. -/
abbrev Store := Nat → Option Record

/-- Point update of the record set. -/
def Store.set (s : Store) (id : Nat) (r : Option Record) : Store :=
  fun k => if k = id then r else s k

/-- The empty record set. -/
def emptyStore : Store := fun _ => none

/-- Whether a record's expiry time has passed at time `now`.
Modelled from the spec: `expires` of `None`/zero means "never expires"
(§3); otherwise the absolute expiry `created + expires` has passed when
`now` has reached it (§4.2, §8: a get after ≥ n seconds sees `NotFound`). -/
def Record.isExpired (r : Record) (now : Nat) : Bool :=
  match r.entry.expires with
  | none => false
  | some n => decide (0 < n) && decide (r.created + n ≤ now)

namespace Layer

/-- Modelled from the spec: `insert(identifier, entry)` of the storage
layer (`cache.rs`/`db.rs`, not in `src/`): persists a new Entry under the
identifier together with the current timestamp; fails with
`IdentifierCollision` if the identifier is already in use; no other side
effect (§4.2). -/
def insert (id : Nat) (e : Entry) (now : Nat) (s : Store) :
    Except Error Store :=
  match s id with
  | some _ => .error .IdentifierCollision
  | none => .ok (s.set id (some ⟨e, now⟩))

/-- Modelled from the spec: `get(identifier)` of the storage layer
(`cache.rs`/`db.rs`, not in `src/`): computes `seconds_since_creation`
as now minus creation time; if the absolute expiry has passed the record
is deleted and `NotFound` returned; if `burn_after_reading` is true the
record is deleted as part of the same call after the value to return has
been captured; absent records give `NotFound` (§4.2).  Returns the result
together with the record set after the call. -/
def get (id : Nat) (now : Nat) (s : Store) :
    Except Error Entry × Store :=
  match s id with
  | none => (.error .NotFound, s)
  | some r =>
    if r.isExpired now then
      (.error .NotFound, s.set id none)
    else
      let e := { r.entry with seconds_since_creation := now - r.created }
      if r.entry.burn_after_reading = some true then
        (.ok e, s.set id none)
      else
        (.ok e, s)

/-- Modelled from the spec: `delete(identifier)` of the storage layer
(`cache.rs`/`db.rs`, not in `src/`): removes the record unconditionally
if present; fails with `NotFound` if absent (§4.2). -/
def delete (id : Nat) (s : Store) : Except Error Store :=
  match s id with
  | none => .error .NotFound
  | some _ => .ok (s.set id none)

end Layer

/-- Runs a sequence of `get` calls for the same identifier at the given
times, threading the record set through; returns the list of results in
order together with the final record set.  This is a linearization of
concurrent and subsequent `get` calls, which the spec's per-identifier
linearizability requirement (§5) makes faithful. -/
def runGets (id : Nat) (ts : List Nat) (s : Store) :
    List (Except Error Entry) × Store :=
  match ts with
  | [] => ([], s)
  | t :: rest =>
    let p := Layer.get id t s
    let q := runGets id rest p.2
    (p.1 :: q.1, q.2)

/-- The form payload of the web index page (`src/web.rs`, `FormEntry`):
text, optional extension, and the `expires` selector as a raw string. -/
structure FormEntry where
  text : String
  extension : Option String
  expires : String
  deriving DecidableEq, Repr

/-- Decidable equality for `Except`, used to evaluate handler results on
concrete inputs. -/
instance {ε α : Type} [DecidableEq ε] [DecidableEq α] :
    DecidableEq (Except ε α) := fun a b =>
  match a, b with
  | .ok x, .ok y =>
    if h : x = y then .isTrue (by rw [h]) else .isFalse (by simp [h])
  | .ok _, .error _ => .isFalse (by simp)
  | .error _, .ok _ => .isFalse (by simp)
  | .error x, .error y =>
    if h : x = y then .isTrue (by rw [h]) else .isFalse (by simp [h])

/-- Rust's `str::parse::<u32>()`: an optional leading `+` sign followed by
one or more ASCII digits, with the value required to fit in 32 bits;
anything else (empty, signs other than `+`, non-digits, overflow) fails. -/
def parseU32 (s : String) : Option Nat :=
  let digits :=
    match s.toList with
    | '+' :: cs => cs
    | cs => cs
  if digits.isEmpty then none
  else if digits.all Char.isDigit then
    let v := digits.foldl (fun acc c => acc * 10 + (c.toNat - 48)) 0
    if v < 2 ^ 32 then some v else none
  else none

/-- `impl From<FormEntry> for Entry` (`src/web.rs` lines 31-48):
`burn_after_reading` is `Some(expires == "burn")`; `expires` parses the
same string as a `u32`, mapping a parse failure or a parsed `0` to `None`
and any other parsed value to `Some`; `seconds_since_creation` starts at
`0`. -/
def FormEntry.toEntry (f : FormEntry) : Entry :=
  let burn_after_reading := some (f.expires == "burn")
  let expires :=
    match parseU32 f.expires with
    | some 0 => none
    | none => none
    | some secs => some secs
  { text := f.text
    extension := f.extension
    expires := expires
    burn_after_reading := burn_after_reading
    seconds_since_creation := 0 }

/-- Modelled from the spec: `parse(text) -> Identifier` of the identifier
codec (`id.rs`, not in `src/`): decodes a short alphanumeric token to a
`u32`, failing with `InvalidIdentifier` — and no other error kind — on a
wrong character set, an empty token, or overflow (§4.1).  The concrete
alphabet is not fixed by the spec; base-62 over `0-9A-Za-z` is used. -/
def Id.tryFrom (s : String) : Except Error Nat :=
  let alphabet := "0123456789ABCDEFGHIJKLMNOPQRSTUVWXYZabcdefghijklmnopqrstuvwxyz".toList
  let cs := s.toList
  if cs.isEmpty then .error .InvalidIdentifier
  else if cs.all (fun c => alphabet.contains c) then
    let v := cs.foldl (fun acc c => acc * 62 + alphabet.indexOf c) 0
    if v < 2 ^ 32 then .ok v else .error .InvalidIdentifier
  else .error .InvalidIdentifier

/-- The `raw` handler (`src/rest.rs` lines 56-58) after identifier
parsing: `layer.get(id)` and project the entry's `text`.  Identifier
parsing (`Id::try_from`, in `id.rs`, not in `src/`) is factored out: this
takes the already-parsed numeric identifier. -/
def rawById (id : Nat) (now : Nat) (s : Store) :
    Except Error String × Store :=
  match Layer.get id now s with
  | (.error e, s1) => (.error e, s1)
  | (.ok entry, s1) => (.ok entry.text, s1)

/-- The `delete` handler (`src/rest.rs` lines 60-70 and identically
`src/web.rs` lines 162-176) after identifier parsing: `layer.get(id)`,
fail with `DeletionTimeExpired` when the returned
`seconds_since_creation` exceeds 60, otherwise `layer.delete(id)`.
Errors propagate with the record set as left by the failing call. -/
def deleteHandler (id : Nat) (now : Nat) (s : Store) :
    Except Error Unit × Store :=
  match Layer.get id now s with
  | (.error e, s1) => (.error e, s1)
  | (.ok entry, s1) =>
    if entry.seconds_since_creation > 60 then
      (.error .DeletionTimeExpired, s1)
    else
      match Layer.delete id s1 with
      | .error e => (.error e, s1)
      | .ok s2 => (.ok (), s2)

/-- Rust's `str::is_ascii`: every character is an ASCII character. -/
def isAsciiStr (s : String) : Bool :=
  s.toList.all (fun c => c.toNat < 128)

/-- The `download` handler (`src/web.rs` lines 178-196): validate the
extension first, failing with `IllegalCharacters` when it is not ASCII
before any identifier parsing or storage access; then parse the
identifier and fetch the raw text via `layer.get`.  The response headers
are presentation and are not modelled; the body is the entry text. -/
def download (idStr : String) (extension : String) (now : Nat)
    (s : Store) : Except Error String × Store :=
  if !isAsciiStr extension then
    (.error .IllegalCharacters, s)
  else
    match Id.tryFrom idStr with
    | .error e => (.error e, s)
    | .ok id =>
      match Layer.get id now s with
      | (.error e, s1) => (.error e, s1)
      | (.ok entry, s1) => (.ok entry.text, s1)

/-- An Entry-derived view where `text` has been replaced by highlighted
markup; carries the same `seconds_since_creation` (spec §3). -/
structure FormattedEntry where
  formatted : String
  seconds_since_creation : Nat
  deriving DecidableEq, Repr

/-- Modelled from the spec: the external highlighting collaborator
(§6), a pure function with no failure mode visible to the core,
degrading to plain output.  Its concrete markup is irrelevant to every
claim; it is modelled as plain-text rendering. -/
def highlight (text : String) (_ext : Option String) : String :=
  text

/-- Modelled from the spec: `get_formatted(key)` of the rendering cache
(`cache.rs`, not in `src/`): resolves the identifier via the storage
layer's `get`; on success highlights the text with the key's extension
if present, else the entry's own extension, and returns a
`FormattedEntry` carrying the entry's `seconds_since_creation` (§4.3). -/
def Layer.getFormatted (id : Nat) (keyExt : Option String) (now : Nat)
    (s : Store) : Except Error FormattedEntry × Store :=
  match Layer.get id now s with
  | (.error e, s1) => (.error e, s1)
  | (.ok entry, s1) =>
    let eff := match keyExt with
      | some x => some x
      | none => entry.extension
    (.ok ⟨highlight entry.text eff, entry.seconds_since_creation⟩, s1)

/-- The fields of the rendered paste page relevant to the lifecycle:
the highlighted markup and whether the page offers deletion. -/
structure Paste where
  formatted : String
  deletion_possible : Bool
  deriving DecidableEq, Repr

/-- The `show` handler (`src/web.rs` lines 133-151) after key parsing:
`layer.get_formatted(key)` and render a page whose `deletion_possible`
is `entry.seconds_since_creation < 60` (line 148).  Key parsing
(`Key::try_from`, in `cache.rs`, not in `src/`) is factored out: this
takes the parsed identifier and optional extension; the page's title,
id and extension strings are presentation and are not modelled. -/
def showPaste (id : Nat) (keyExt : Option String) (now : Nat) (s : Store) :
    Except Error Paste × Store :=
  match Layer.getFormatted id keyExt now s with
  | (.error e, s1) => (.error e, s1)
  | (.ok fe, s1) =>
    (.ok { formatted := fe.formatted
           deletion_possible := decide (fe.seconds_since_creation < 60) },
     s1)

/-- Sample entry mirroring the spec's round-trip scenario (§8). -/
def entryFoo : Entry :=
  { text := "FooBarBaz", extension := none, expires := none
    burn_after_reading := some false, seconds_since_creation := 0 }

/-- Sample burn-after-reading entry. -/
def entryBurn : Entry :=
  { text := "secret", extension := none, expires := none
    burn_after_reading := some true, seconds_since_creation := 0 }

/-- Sample entry expiring one second after creation. -/
def entryExp : Entry :=
  { text := "x", extension := none, expires := some 1
    burn_after_reading := some false, seconds_since_creation := 0 }

/-- Sample entry with an explicit zero expiry. -/
def entryZero : Entry :=
  { text := "z", extension := none, expires := some 0
    burn_after_reading := some false, seconds_since_creation := 0 }

/-- A record created at time 0 from `entryExp`; expired at any time ≥ 1. -/
def recExpired : Record := { entry := entryExp, created := 0 }

/-- A record created at time 0 from `entryFoo`; never expires. -/
def recFoo : Record := { entry := entryFoo, created := 0 }

/-- A record created at time 0 from `entryBurn`; never expires. -/
def recBurn : Record := { entry := entryBurn, created := 0 }

/-- A one-record store holding `recExpired` under identifier 0. -/
def storeExpired : Store := emptyStore.set 0 (some recExpired)

/-- A one-record store holding `recFoo` under identifier 0. -/
def storeFoo : Store := emptyStore.set 0 (some recFoo)

/-- A one-record store holding `recBurn` under identifier 0. -/
def storeBurn : Store := emptyStore.set 0 (some recBurn)

/-! Helper lemmas about the storage layer. -/

lemma Store.set_self (s : Store) (id : Nat) (r : Option Record) :
    (s.set id r) id = r := by
  simp [Store.set]

lemma Record.isExpired_at_creation (e : Entry) (t0 : Nat) :
    Record.isExpired ⟨e, t0⟩ t0 = false := by
  unfold Record.isExpired
  cases e.expires with
  | none => rfl
  | some n => simp; omega

lemma Layer.get_absent (s : Store) (id now : Nat) (h : s id = none) :
    Layer.get id now s = (.error .NotFound, s) := by
  unfold Layer.get
  rw [h]

lemma Layer.get_live (s : Store) (id now : Nat) (r : Record)
    (hr : s id = some r) (hlive : r.isExpired now = false) :
    Layer.get id now s =
      (.ok { r.entry with seconds_since_creation := now - r.created },
       if r.entry.burn_after_reading = some true then s.set id none
       else s) := by
  unfold Layer.get
  rw [hr]
  simp only [hlive, Bool.false_eq_true, if_false]
  by_cases hb : r.entry.burn_after_reading = some true <;> simp [hb]

lemma Layer.get_expired (s : Store) (id now : Nat) (r : Record)
    (hr : s id = some r) (hexp : r.isExpired now = true) :
    Layer.get id now s = (.error .NotFound, s.set id none) := by
  unfold Layer.get
  rw [hr]
  simp [hexp]

lemma Layer.delete_absent (s : Store) (id : Nat) (h : s id = none) :
    Layer.delete id s = .error .NotFound := by
  unfold Layer.delete
  rw [h]

lemma Layer.delete_present (s : Store) (id : Nat) (r : Record)
    (h : s id = some r) : Layer.delete id s = .ok (s.set id none) := by
  unfold Layer.delete
  rw [h]

lemma Layer.insert_free (s : Store) (id : Nat) (e : Entry) (now : Nat)
    (h : s id = none) :
    Layer.insert id e now s = .ok (s.set id (some ⟨e, now⟩)) := by
  unfold Layer.insert
  rw [h]

lemma runGets_absent (s : Store) (id : Nat) (ts : List Nat)
    (h : s id = none) :
    runGets id ts s =
      (ts.map (fun _ => (.error .NotFound : Except Error Entry)), s) := by
  induction ts with
  | nil => rfl
  | cons t rest ih =>
    unfold runGets
    rw [Layer.get_absent s id t h]
    simp [ih]

lemma deleteHandler_absent (s : Store) (id now : Nat) (h : s id = none) :
    deleteHandler id now s = (.error .NotFound, s) := by
  unfold deleteHandler
  rw [Layer.get_absent s id now h]

lemma deleteHandler_live (s : Store) (id now : Nat) (r : Record)
    (hr : s id = some r) (hlive : r.isExpired now = false) :
    deleteHandler id now s =
      if 60 < now - r.created then
        (.error .DeletionTimeExpired,
         if r.entry.burn_after_reading = some true then s.set id none
         else s)
      else if r.entry.burn_after_reading = some true then
        (.error .NotFound, s.set id none)
      else
        (.ok (), s.set id none) := by
  unfold deleteHandler
  rw [Layer.get_live s id now r hr hlive]
  by_cases hb : r.entry.burn_after_reading = some true
  · by_cases h60 : 60 < now - r.created <;>
      simp [hb, h60, Layer.delete_absent _ id (Store.set_self ..)]
  · by_cases h60 : 60 < now - r.created <;>
      simp [hb, h60, Layer.delete_present s id r hr]

lemma deleteHandler_expired (s : Store) (id now : Nat) (r : Record)
    (hr : s id = some r) (hexp : r.isExpired now = true) :
    deleteHandler id now s = (.error .NotFound, s.set id none) := by
  unfold deleteHandler
  rw [Layer.get_expired s id now r hr hexp]

lemma Id.tryFrom_error (t : String) (e : Error)
    (h : Id.tryFrom t = .error e) : e = .InvalidIdentifier := by
  unfold Id.tryFrom at h
  dsimp only at h
  split at h
  · exact (Except.error.inj h).symm
  · split at h
    · split at h
      · exact absurd h (by simp)
      · exact (Except.error.inj h).symm
    · exact (Except.error.inj h).symm

lemma Layer.get_error_notFound (id now : Nat) (s : Store) (e : Error)
    (h : (Layer.get id now s).1 = .error e) : e = .NotFound := by
  cases hr : s id with
  | none =>
    rw [Layer.get_absent s id now hr] at h
    exact (Except.error.inj h).symm
  | some r =>
    cases hexp : r.isExpired now with
    | true =>
      rw [Layer.get_expired s id now r hr hexp] at h
      exact (Except.error.inj h).symm
    | false =>
      rw [Layer.get_live s id now r hr hexp] at h
      exact absurd h (by simp)

lemma runGets_cons (id t : Nat) (ts : List Nat) (s : Store) :
    runGets id (t :: ts) s =
      ((Layer.get id t s).1 :: (runGets id ts (Layer.get id t s).2).1,
       (runGets id ts (Layer.get id t s).2).2) := rfl

/-- C5: for an entry with no expiry and the burn flag not set, `insert`
followed immediately by `get` returns an entry equal to the inserted one
in every field except `seconds_since_creation`, which is exactly 0, and
the `raw` handler returns exactly the inserted text. -/
theorem claim_C5_roundtrip (s : Store) (id : Nat) (e : Entry) (t0 : Nat)
    (hfree : s id = none) (hexp : e.expires = none)
    (hburn : e.burn_after_reading ≠ some true) :
    ∃ s1, Layer.insert id e t0 s = .ok s1 ∧
      Layer.get id t0 s1 = (.ok { e with seconds_since_creation := 0 }, s1) ∧
      (rawById id t0 s1).1 = .ok e.text := by
  have hget : Layer.get id t0 (s.set id (some ⟨e, t0⟩)) =
      (.ok { e with seconds_since_creation := 0 }, s.set id (some ⟨e, t0⟩)) := by
    rw [Layer.get_live _ id t0 ⟨e, t0⟩ (Store.set_self ..)
      (Record.isExpired_at_creation e t0)]
    simp [hburn]
  refine ⟨s.set id (some ⟨e, t0⟩), Layer.insert_free s id e t0 hfree, hget, ?_⟩
  unfold rawById
  rw [hget]

/-- Witness for C5 at the spec's round-trip scenario: inserting the
`FooBarBaz` entry into the empty store at time 7 and reading it back. -/
theorem claim_C5_roundtrip_witness :
    emptyStore 0 = none ∧ entryFoo.expires = none ∧
    entryFoo.burn_after_reading ≠ some true ∧
    (∃ s1, Layer.insert 0 entryFoo 7 emptyStore = .ok s1 ∧
      Layer.get 0 7 s1 = (.ok { entryFoo with seconds_since_creation := 0 }, s1) ∧
      (rawById 0 7 s1).1 = .ok entryFoo.text) :=
  ⟨rfl, rfl, by decide,
    claim_C5_roundtrip emptyStore 0 entryFoo 7 rfl rfl (by decide)⟩

/-- C6: a zero expiry means "never expires": the form conversion maps
the string "0" to `expires = None`, and an entry stored with `expires`
absent or zero is returned successfully by `get` at every later time. -/
theorem claim_C6_zero_never_expires (s : Store) (id t0 : Nat) (e : Entry)
    (hfree : s id = none)
    (hz : e.expires = none ∨ e.expires = some 0)
    (hburn : e.burn_after_reading ≠ some true) :
    (∀ text ext, (FormEntry.toEntry ⟨text, ext, "0"⟩).expires = none) ∧
    ∃ s1, Layer.insert id e t0 s = .ok s1 ∧
      ∀ t, Layer.get id t s1 =
        (.ok { e with seconds_since_creation := t - t0 }, s1) := by
  constructor
  · intro text ext
    have h0 : parseU32 "0" = some 0 := by decide
    simp [FormEntry.toEntry, h0]
  · refine ⟨s.set id (some ⟨e, t0⟩), Layer.insert_free s id e t0 hfree, ?_⟩
    intro t
    have hlive : Record.isExpired ⟨e, t0⟩ t = false := by
      unfold Record.isExpired
      rcases hz with h | h <;> simp [h]
    rw [Layer.get_live _ id t ⟨e, t0⟩ (Store.set_self ..) hlive]
    simp [hburn]

/-- Witness for C6 at the entry with explicit zero expiry, inserted into
the empty store at time 3. -/
theorem claim_C6_zero_never_expires_witness :
    emptyStore 0 = none ∧
    (entryZero.expires = none ∨ entryZero.expires = some 0) ∧
    entryZero.burn_after_reading ≠ some true ∧
    ((∀ text ext, (FormEntry.toEntry ⟨text, ext, "0"⟩).expires = none) ∧
      ∃ s1, Layer.insert 0 entryZero 3 emptyStore = .ok s1 ∧
        ∀ t, Layer.get 0 t s1 =
          (.ok { entryZero with seconds_since_creation := t - 3 }, s1)) :=
  ⟨rfl, by decide, by decide,
    claim_C6_zero_never_expires emptyStore 0 3 entryZero rfl (by decide)
      (by decide)⟩

/-- C4: for an entry inserted with a positive expiry of `n` seconds, a
`get` strictly before `n` seconds have elapsed returns the entry with the
elapsed `seconds_since_creation`, and a `get` at or after `n` seconds
returns `NotFound` and deletes the record as part of that call. -/
theorem claim_C4_expiry (s : Store) (id : Nat) (e : Entry) (t0 n : Nat)
    (hfree : s id = none) (hexp : e.expires = some n) (hpos : 0 < n) :
    ∃ s1, Layer.insert id e t0 s = .ok s1 ∧
      ∀ t,
        (t < t0 + n →
          (Layer.get id t s1).1 =
            .ok { e with seconds_since_creation := t - t0 }) ∧
        (t0 + n ≤ t →
          Layer.get id t s1 = (.error .NotFound, s1.set id none) ∧
          (Layer.get id t s1).2 id = none) := by
  refine ⟨s.set id (some ⟨e, t0⟩), Layer.insert_free s id e t0 hfree, ?_⟩
  intro t
  constructor
  · intro hlt
    have hlive : Record.isExpired ⟨e, t0⟩ t = false := by
      unfold Record.isExpired
      simp [hexp]
      omega
    rw [Layer.get_live _ id t ⟨e, t0⟩ (Store.set_self ..) hlive]
  · intro hge
    have hdead : Record.isExpired ⟨e, t0⟩ t = true := by
      unfold Record.isExpired
      simp [hexp]
      omega
    have h := Layer.get_expired (s.set id (some ⟨e, t0⟩)) id t ⟨e, t0⟩
      (Store.set_self ..) hdead
    exact ⟨h, by rw [h]; exact Store.set_self ..⟩

/-- Witness for C4 at the one-second entry inserted into the empty store
at time 10, read at times 10 (live) and 11 (expired). -/
theorem claim_C4_expiry_witness :
    emptyStore 0 = none ∧ entryExp.expires = some 1 ∧ 0 < 1 ∧
    (∃ s1, Layer.insert 0 entryExp 10 emptyStore = .ok s1 ∧
      ∀ t,
        (t < 10 + 1 →
          (Layer.get 0 t s1).1 =
            .ok { entryExp with seconds_since_creation := t - 10 }) ∧
        (10 + 1 ≤ t →
          Layer.get 0 t s1 = (.error .NotFound, s1.set 0 none) ∧
          (Layer.get 0 t s1).2 0 = none)) :=
  ⟨rfl, rfl, by decide,
    claim_C4_expiry emptyStore 0 entryExp 10 1 rfl rfl (by decide)⟩

/-- C1: after inserting a burn-after-reading entry, in any linearization
of get calls for its identifier — the first issued immediately after
insertion, the rest at arbitrary times — the first call alone returns the
content, every other call returns `NotFound`, exactly one result is a
success, and the record is gone afterwards.  The storage layer's
per-identifier linearizability requirement reduces concurrent calls to
such linearizations. -/
theorem claim_C1_burn_once (s : Store) (id : Nat) (e : Entry) (t0 : Nat)
    (ts : List Nat) (hfree : s id = none)
    (hburn : e.burn_after_reading = some true) :
    ∃ s1, Layer.insert id e t0 s = .ok s1 ∧
      (runGets id (t0 :: ts) s1).1 =
        .ok { e with seconds_since_creation := 0 } ::
          ts.map (fun _ => .error .NotFound) ∧
      (runGets id (t0 :: ts) s1).1.countP Except.isOk = 1 ∧
      (runGets id (t0 :: ts) s1).2 id = none := by
  refine ⟨s.set id (some ⟨e, t0⟩), Layer.insert_free s id e t0 hfree, ?_⟩
  have hget : Layer.get id t0 (s.set id (some ⟨e, t0⟩)) =
      (.ok { e with seconds_since_creation := 0 },
       (s.set id (some ⟨e, t0⟩)).set id none) := by
    rw [Layer.get_live _ id t0 ⟨e, t0⟩ (Store.set_self ..)
      (Record.isExpired_at_creation e t0)]
    simp [hburn]
  have habs : ((s.set id (some ⟨e, t0⟩)).set id none) id = none :=
    Store.set_self ..
  have hrun : runGets id (t0 :: ts) (s.set id (some ⟨e, t0⟩)) =
      (.ok { e with seconds_since_creation := 0 } ::
         ts.map (fun _ => .error .NotFound),
       (s.set id (some ⟨e, t0⟩)).set id none) := by
    rw [runGets_cons, hget]
    simp [runGets_absent _ id ts habs]
  refine ⟨by rw [hrun], ?_, by rw [hrun]; exact habs⟩
  have hcount : ∀ l : List Nat,
      (l.map (fun _ => (.error .NotFound : Except Error Entry))).countP
        Except.isOk = 0 := by
    intro l
    induction l with
    | nil => rfl
    | cons a l ih => simp [List.countP_cons, ih, Except.isOk, Except.toBool]
  rw [hrun]
  simp [List.countP_cons, hcount ts, Except.isOk, Except.toBool]

/-- Witness for C1: the burn entry inserted into the empty store at time
5, with one immediate get and two later gets at times 6 and 99. -/
theorem claim_C1_burn_once_witness :
    emptyStore 0 = none ∧ entryBurn.burn_after_reading = some true ∧
    (∃ s1, Layer.insert 0 entryBurn 5 emptyStore = .ok s1 ∧
      (runGets 0 (5 :: [6, 99]) s1).1 =
        .ok { entryBurn with seconds_since_creation := 0 } ::
          [6, 99].map (fun _ => .error .NotFound) ∧
      (runGets 0 (5 :: [6, 99]) s1).1.countP Except.isOk = 1 ∧
      (runGets 0 (5 :: [6, 99]) s1).2 0 = none) :=
  ⟨rfl, rfl,
    claim_C1_burn_once emptyStore 0 entryBurn 5 [6, 99] rfl rfl⟩

/-- C3: once an identifier has no live record, `get`, the `delete`
handler and the storage layer's `delete` all fail with `NotFound` and
leave the record set unchanged; and after a successful `delete` handler
call the record is gone, so every subsequent `get` or `delete` for the
identifier — at any time — reports `NotFound` and never any other
error. -/
theorem claim_C3_destroyed_not_found (s : Store) (id now : Nat) :
    (s id = none →
      Layer.get id now s = (.error .NotFound, s) ∧
      deleteHandler id now s = (.error .NotFound, s) ∧
      Layer.delete id s = .error .NotFound) ∧
    (∀ s1, deleteHandler id now s = (.ok (), s1) →
      s1 id = none ∧
      ∀ t, (Layer.get id t s1).1 = .error .NotFound ∧
        (deleteHandler id t s1).1 = .error .NotFound) := by
  constructor
  · intro h
    exact ⟨Layer.get_absent s id now h, deleteHandler_absent s id now h,
      Layer.delete_absent s id h⟩
  · intro s1 h
    have hnone : s1 id = none := by
      cases hr : s id with
      | none =>
        rw [deleteHandler_absent s id now hr] at h
        simp at h
      | some r =>
        cases hexp : r.isExpired now with
        | true =>
          rw [deleteHandler_expired s id now r hr hexp] at h
          simp at h
        | false =>
          rw [deleteHandler_live s id now r hr hexp] at h
          by_cases h60 : 60 < now - r.created
          · simp [h60] at h
          · by_cases hb : r.entry.burn_after_reading = some true
            · simp [h60, hb] at h
            · simp [h60, hb] at h
              rw [← h]
              exact Store.set_self ..
    refine ⟨hnone, fun t => ⟨?_, ?_⟩⟩
    · rw [Layer.get_absent s1 id t hnone]
    · rw [deleteHandler_absent s1 id t hnone]

/-- Witness for C3: gets and deletes on the empty store report
`NotFound`; a successful delete of the `FooBarBaz` record at time 30
leaves the identifier destroyed and later gets and deletes at time 99
report `NotFound`. -/
theorem claim_C3_destroyed_not_found_witness :
    emptyStore 0 = none ∧
    Layer.get 0 9 emptyStore = (.error .NotFound, emptyStore) ∧
    deleteHandler 0 9 emptyStore = (.error .NotFound, emptyStore) ∧
    Layer.delete 0 emptyStore = .error .NotFound ∧
    deleteHandler 0 30 storeFoo = (.ok (), storeFoo.set 0 none) ∧
    (storeFoo.set 0 none) 0 = none ∧
    (Layer.get 0 99 (storeFoo.set 0 none)).1 = .error .NotFound ∧
    (deleteHandler 0 99 (storeFoo.set 0 none)).1 = .error .NotFound := by
  have h1 := (claim_C3_destroyed_not_found emptyStore 0 9).1 rfl
  have h2 := (claim_C3_destroyed_not_found storeFoo 0 30).2
    (storeFoo.set 0 none) rfl
  exact ⟨rfl, h1.1, h1.2.1, h1.2.2, rfl, h2.1, (h2.2 99).1, (h2.2 99).2⟩

/-- C2 counterexample: a stored record whose entry expired (one-second
expiry, read at time 100) has `seconds_since_creation = 100 > 60`, yet
the delete handler fails with `NotFound` — the expired record is lazily
deleted by the handler's internal `get` — not with
`DeletionTimeExpired`, refuting the claimed equivalence for every stored
entry. -/
theorem claim_C2_counterexample :
    storeExpired 0 = some recExpired ∧
    60 < 100 - recExpired.created ∧
    (deleteHandler 0 100 storeExpired).1 = .error .NotFound ∧
    ¬(deleteHandler 0 100 storeExpired).1 = .error .DeletionTimeExpired :=
  ⟨by decide, by decide, by decide, by decide⟩

/-- C2 as amended: for every stored record that is still live (its
expiry has not passed) at the time of the call, the delete handler fails
with `DeletionTimeExpired` exactly when `seconds_since_creation`
exceeds 60; when it is at most 60 the record is removed, every
subsequent `get` returns `NotFound`, and — unless the entry is
burn-after-reading, whose burning internal `get` makes the final delete
report `NotFound` — the handler succeeds. -/
theorem claim_C2_deletion_window (s : Store) (id : Nat) (r : Record)
    (now : Nat) (hr : s id = some r) (hlive : r.isExpired now = false) :
    ((deleteHandler id now s).1 = .error .DeletionTimeExpired ↔
      60 < now - r.created) ∧
    (now - r.created ≤ 60 →
      (deleteHandler id now s).2 id = none ∧
      (∀ t, (Layer.get id t ((deleteHandler id now s).2)).1 =
        .error .NotFound) ∧
      (r.entry.burn_after_reading ≠ some true →
        (deleteHandler id now s).1 = .ok ())) := by
  have hd := deleteHandler_live s id now r hr hlive
  by_cases h60 : 60 < now - r.created
  · constructor
    · rw [hd]
      by_cases hb : r.entry.burn_after_reading = some true <;>
        simp [hb, h60]
    · intro hle
      omega
  · by_cases hb : r.entry.burn_after_reading = some true
    · have hd2 : deleteHandler id now s = (.error .NotFound, s.set id none) := by
        rw [hd, if_neg h60, if_pos hb]
      refine ⟨by simp [hd2, h60], fun _ => ⟨?_, fun t => ?_,
        fun hnb => absurd hb hnb⟩⟩
      · rw [hd2]
        exact Store.set_self ..
      · rw [hd2, Layer.get_absent _ id t (Store.set_self ..)]
    · have hd2 : deleteHandler id now s = (.ok (), s.set id none) := by
        rw [hd, if_neg h60, if_neg hb]
      refine ⟨by simp [hd2, h60], fun _ => ⟨?_, fun t => ?_,
        fun _ => by rw [hd2]⟩⟩
      · rw [hd2]
        exact Store.set_self ..
      · rw [hd2, Layer.get_absent _ id t (Store.set_self ..)]

/-- Witness for C2 as amended, at the live never-expiring `FooBarBaz`
record: at time 100 the handler fails with `DeletionTimeExpired`; at
time 30 it succeeds, removes the record, and later gets report
`NotFound`. -/
theorem claim_C2_deletion_window_witness :
    storeFoo 0 = some recFoo ∧ recFoo.isExpired 30 = false ∧
    recFoo.isExpired 100 = false ∧
    ((deleteHandler 0 100 storeFoo).1 = .error .DeletionTimeExpired ↔
      60 < 100 - recFoo.created) ∧
    (30 - recFoo.created ≤ 60 →
      (deleteHandler 0 30 storeFoo).2 0 = none ∧
      (∀ t, (Layer.get 0 t ((deleteHandler 0 30 storeFoo).2)).1 =
        .error .NotFound) ∧
      (recFoo.entry.burn_after_reading ≠ some true →
        (deleteHandler 0 30 storeFoo).1 = .ok ())) :=
  ⟨by decide, by decide, by decide,
    (claim_C2_deletion_window storeFoo 0 recFoo 100 (by decide)
      (by decide)).1,
    (claim_C2_deletion_window storeFoo 0 recFoo 30 (by decide)
      (by decide)).2⟩

/-- C7: the download handler validates the extension before anything
else: a non-ASCII extension fails with `IllegalCharacters` with the
record set untouched, whatever the identifier or store; an ASCII
extension never produces `IllegalCharacters` (identifier parsing can
only yield `InvalidIdentifier` and the storage layer only `NotFound`). -/
theorem claim_C7_extension_ascii (idStr ext : String) (now : Nat)
    (s : Store) :
    (isAsciiStr ext = false →
      download idStr ext now s = (.error .IllegalCharacters, s)) ∧
    (isAsciiStr ext = true →
      (download idStr ext now s).1 ≠ .error .IllegalCharacters) := by
  constructor
  · intro h
    simp [download, h]
  · intro h hcontra
    simp only [download, h, Bool.not_true, Bool.false_eq_true, if_false] at hcontra
    cases hid : Id.tryFrom idStr with
    | error e =>
      rw [hid] at hcontra
      simp at hcontra
      have := Id.tryFrom_error idStr e hid
      rw [this] at hcontra
      exact Error.noConfusion hcontra
    | ok idv =>
      simp only [hid] at hcontra
      cases hget : Layer.get idv now s with
      | mk res st =>
        rw [hget] at hcontra
        cases res with
        | error e2 =>
          simp at hcontra
          have he2 : e2 = .NotFound :=
            Layer.get_error_notFound idv now s e2 (by rw [hget])
          rw [he2] at hcontra
          exact Error.noConfusion hcontra
        | ok entry =>
          simp at hcontra

/-- Witness for C7: the extension `pé` is rejected with
`IllegalCharacters` on the empty store, and the ASCII extension `py`
never yields that error. -/
theorem claim_C7_extension_ascii_witness :
    isAsciiStr "pé" = false ∧
    download "zz" "pé" 3 emptyStore = (.error .IllegalCharacters, emptyStore) ∧
    isAsciiStr "py" = true ∧
    (download "zz" "py" 3 emptyStore).1 ≠ .error .IllegalCharacters :=
  ⟨by decide,
    (claim_C7_extension_ascii "zz" "pé" 3 emptyStore).1 (by decide),
    by decide,
    (claim_C7_extension_ascii "zz" "py" 3 emptyStore).2 (by decide)⟩

/-- C9: the web form conversion derives both flags from the single
`expires` string: `burn_after_reading` is `Some(true)` exactly for
"burn" and `Some(false)` otherwise; `expires` is `None` whenever the
string does not parse as a positive `u32` — in particular for "burn"
and "0" — and is the parsed value otherwise. -/
theorem claim_C9_form_conversion (text : String) (ext : Option String)
    (sel : String) :
    ((FormEntry.toEntry ⟨text, ext, sel⟩).burn_after_reading = some true ↔
      sel = "burn") ∧
    ((FormEntry.toEntry ⟨text, ext, sel⟩).burn_after_reading = some false ↔
      sel ≠ "burn") ∧
    (parseU32 sel = none ∨ parseU32 sel = some 0 →
      (FormEntry.toEntry ⟨text, ext, sel⟩).expires = none) ∧
    (∀ n, parseU32 sel = some n → 0 < n →
      (FormEntry.toEntry ⟨text, ext, sel⟩).expires = some n) ∧
    parseU32 "burn" = none ∧ parseU32 "0" = some 0 ∧
    (FormEntry.toEntry ⟨text, ext, "burn"⟩).burn_after_reading = some true ∧
    (FormEntry.toEntry ⟨text, ext, "burn"⟩).expires = none := by
  refine ⟨?_, ?_, ?_, ?_, by decide, by decide, ?_, ?_⟩
  · simp [FormEntry.toEntry]
  · simp [FormEntry.toEntry]
  · intro h
    rcases h with h | h <;> simp [FormEntry.toEntry, h]
  · intro n hp hpos
    cases n with
    | zero => omega
    | succ m => simp [FormEntry.toEntry, hp]
  · have hbb : ("burn" == "burn") = true := by decide
    simp [FormEntry.toEntry, hbb]
  · have hb : parseU32 "burn" = none := by decide
    simp [FormEntry.toEntry, hb]

/-- Witness for C9: the selector "5" gives a five-second expiry without
the burn flag. -/
theorem claim_C9_form_conversion_witness :
    (FormEntry.toEntry ⟨"t", none, "5"⟩).expires = some 5 ∧
    (FormEntry.toEntry ⟨"t", none, "5"⟩).burn_after_reading = some false := by
  have h := claim_C9_form_conversion "t" none "5"
  exact ⟨h.2.2.2.1 5 (by decide) (by decide), h.2.1.mpr (by decide)⟩

lemma Layer.getFormatted_live (s : Store) (id now : Nat)
    (keyExt : Option String) (r : Record) (hr : s id = some r)
    (hlive : r.isExpired now = false)
    (hburn : r.entry.burn_after_reading ≠ some true) :
    Layer.getFormatted id keyExt now s =
      (.ok ⟨highlight r.entry.text
          (match keyExt with
           | some x => some x
           | none => r.entry.extension),
        now - r.created⟩, s) := by
  unfold Layer.getFormatted
  rw [Layer.get_live s id now r hr hlive, if_neg hburn]

/-- C8: the two deletion-window checks use different boundaries: a live
record read exactly 60 seconds after creation renders a page with
`deletion_possible = false` (the show handler tests strictly less than
60), while the delete handler does not fail with `DeletionTimeExpired`
(it tests strictly greater than 60) and removes the record. -/
theorem claim_C8_window_boundaries (s : Store) (id : Nat) (r : Record)
    (now : Nat) (keyExt : Option String)
    (hr : s id = some r) (hlive : r.isExpired now = false)
    (hburn : r.entry.burn_after_reading ≠ some true)
    (h60 : now - r.created = 60) :
    (∃ p, (showPaste id keyExt now s).1 = .ok p ∧
      p.deletion_possible = false) ∧
    (deleteHandler id now s).1 = .ok () ∧
    (deleteHandler id now s).2 id = none := by
  have hgf := Layer.getFormatted_live s id now keyExt r hr hlive hburn
  have hd : deleteHandler id now s = (.ok (), s.set id none) := by
    rw [deleteHandler_live s id now r hr hlive, if_neg (by omega),
      if_neg hburn]
  refine ⟨⟨⟨highlight r.entry.text
      (match keyExt with | some x => some x | none => r.entry.extension),
      decide (now - r.created < 60)⟩, ?_, ?_⟩,
    by rw [hd], by rw [hd]; exact Store.set_self ..⟩
  · unfold showPaste
    rw [hgf]
    rfl
  · simp [h60]

/-- Witness for C8: the `FooBarBaz` record read exactly 60 seconds after
creation: the page forbids deletion while the delete handler succeeds. -/
theorem claim_C8_window_boundaries_witness :
    storeFoo 0 = some recFoo ∧ recFoo.isExpired 60 = false ∧
    recFoo.entry.burn_after_reading ≠ some true ∧ 60 - recFoo.created = 60 ∧
    ((∃ p, (showPaste 0 none 60 storeFoo).1 = .ok p ∧
        p.deletion_possible = false) ∧
      (deleteHandler 0 60 storeFoo).1 = .ok () ∧
      (deleteHandler 0 60 storeFoo).2 0 = none) :=
  ⟨by decide, by decide, by decide, by decide,
    claim_C8_window_boundaries storeFoo 0 recFoo 60 none (by decide)
      (by decide) (by decide) (by decide)⟩

/-- C10: requesting deletion of a live burn-after-reading record within
the deletion window consumes the record through the handler's internal
`get`, so the final storage delete — and hence the handler — reports
`NotFound` even though the record existed when the request was made, and
the record is gone afterwards. -/
theorem claim_C10_burn_delete_not_found (s : Store) (id : Nat)
    (r : Record) (now : Nat) (hr : s id = some r)
    (hburn : r.entry.burn_after_reading = some true)
    (hlive : r.isExpired now = false) (h60 : now - r.created ≤ 60) :
    (deleteHandler id now s).1 = .error .NotFound ∧
    (deleteHandler id now s).2 id = none := by
  have hd : deleteHandler id now s = (.error .NotFound, s.set id none) := by
    rw [deleteHandler_live s id now r hr hlive, if_neg (by omega),
      if_pos hburn]
  rw [hd]
  exact ⟨rfl, Store.set_self ..⟩

/-- Witness for C10: deleting the live burn record thirty seconds after
creation reports `NotFound` and removes the record. -/
theorem claim_C10_burn_delete_not_found_witness :
    storeBurn 0 = some recBurn ∧
    recBurn.entry.burn_after_reading = some true ∧
    recBurn.isExpired 30 = false ∧ 30 - recBurn.created ≤ 60 ∧
    ((deleteHandler 0 30 storeBurn).1 = .error .NotFound ∧
      (deleteHandler 0 30 storeBurn).2 0 = none) :=
  ⟨by decide, by decide, by decide, by decide,
    claim_C10_burn_delete_not_found storeBurn 0 recBurn 30 (by decide)
      (by decide) (by decide) (by decide)⟩

end Wastebin
